import Mathlib

/-!
# Verification of the lisflood-pp temporal/spatial aggregation core

Shallow embedding of `src/aggregator/temporal_aggregator.py` and the
discharge / standard-chain logic of `src/__main__.py`.

Modelling conventions:
* Timestamps are natural numbers of hours since the first simulation epoch
  (2023-01-01T00:00 in the repository's tests); the Gregorian calendar from
  that epoch is modelled exactly (`monthLen`, `cumDays`).
* Grid values are exact rationals (`ℚ`); a time slice is the flattened list
  of the lat×lon cells, so a grid is a list of times plus a list of slices.
* `xarray`/`pandas` resampling, as exercised by this code on day-aligned
  integral-hour data, is embedded per target frequency (`bucketOf`,
  `labelOf`): month/quarter/year-end frequencies assign a stamp to the
  calendar period containing its date and label it with the period's last
  date (pandas adjusts the right-closed bin edges to the end of the last
  day), year/quarter-start frequencies use the plain right-closed,
  right-labelled bins the code requests, and the fixed-length frequencies
  `6H`/`D` use left-closed, left-labelled bins as requested by the code.
* Python `ValueError`s are the constructors of `AggError`; a caught and
  logged exception becomes a skipped entry or a `none` result, an uncaught
  one an `Except.error`.
* `pd.infer_freq` is embedded by `inferFreq` for the spacings this pipeline
  produces (regular hourly/daily spacings, month-end and year-end stamps);
  for fewer than three stamps it returns `none`.
-/

/-! ## Calendar -/

/-- Gregorian leap-year rule. -/
def isLeap (y : Nat) : Bool := (y % 4 == 0 && y % 100 != 0) || (y % 400 == 0)

/-- Length in days of absolute month `m`, counting months from January 2023
(the epoch of the time axis). -/
def monthLen (m : Nat) : Nat :=
  if m % 12 = 1 then (if isLeap (2023 + m / 12) then 29 else 28)
  else if m % 12 = 3 ∨ m % 12 = 5 ∨ m % 12 = 8 ∨ m % 12 = 10 then 30
  else 31

/-- Days elapsed from the epoch to the start of absolute month `m`. -/
def cumDays : Nat → Nat
  | 0 => 0
  | n + 1 => cumDays n + monthLen n

/-- Absolute month index of day `d`, starting the search at month `m` with
`d` counted from the start of month `m`; `fuel` bounds the recursion and is
always sufficient when `d < fuel` since months are nonempty. -/
def monthOfDayAux : Nat → Nat → Nat → Nat
  | 0, m, _ => m
  | fuel + 1, m, d =>
    if d < monthLen m then m else monthOfDayAux fuel (m + 1) (d - monthLen m)

/-- Absolute month index (months since the epoch) containing day `d`. -/
def monthOfDay (d : Nat) : Nat := monthOfDayAux (d + 1) 0 d

/-! ## Strings: Python `.strip().lower()`, `.upper()`, `.startswith` -/

/-- Characters treated as surrounding whitespace by Python `str.strip()`
for the method names occurring here. -/
def isSpaceChar (c : Char) : Bool := c == ' ' || c == '\t' || c == '\n' || c == '\r'

/-- Python `s.strip().lower()` on ASCII method names. -/
def normalizeMethod (s : String) : String :=
  String.mk (((s.toList.dropWhile isSpaceChar).reverse.dropWhile isSpaceChar).reverse.map
    Char.toLower)

/-- Python `s.upper()` on ASCII frequency codes. -/
def upperStr (s : String) : String := String.mk (s.toList.map Char.toUpper)

/-- Python `s.startswith(pre)`. -/
def startsWithPy (s pre : String) : Bool := pre.toList.isPrefixOf s.toList

/-! ## Values and reduction operators -/

/-- Sum of a list of cell values (`numpy` `sum`). -/
def listSum (xs : List ℚ) : ℚ := xs.sum

/-- Mean of a list of cell values (`numpy` `mean`); buckets are never empty. -/
def listMean (xs : List ℚ) : ℚ := xs.sum / xs.length

/-- Maximum of a list of cell values (`numpy` `max`); 0 on the empty list,
which the code never evaluates. -/
def listMax : List ℚ → ℚ
  | [] => 0
  | x :: xs => xs.foldl max x

/-- Minimum of a list of cell values (`numpy` `min`). -/
def listMin : List ℚ → ℚ
  | [] => 0
  | x :: xs => xs.foldl min x

/-- Median of a list of cell values (`numpy` `median`): middle element of the
sorted list, or the average of the two middle elements. -/
def listMedian (xs : List ℚ) : ℚ :=
  let s := xs.insertionSort (· ≤ ·)
  let n := s.length
  if n = 0 then 0
  else if n % 2 = 1 then s.getD (n / 2) 0
  else (s.getD (n / 2 - 1) 0 + s.getD (n / 2) 0) / 2

/-- The dispatch on normalized aggregation-method names shared by
`_perform_spatial_aggregation`, `aggregate_data_to_timeseries` and
`aggregate_data_to_netcdf`: the five supported reductions. -/
def methodOp (nm : String) : Option (List ℚ → ℚ) :=
  if nm = "mean" then some listMean
  else if nm = "sum" then some listSum
  else if nm = "max" then some listMax
  else if nm = "min" then some listMin
  else if nm = "median" then some listMedian
  else none

/-! ## Data model -/

/-- An `xarray.DataArray` as this pipeline uses it: a name, the tuple of
dimension names, the time axis (hours since epoch) and, per time stamp, the
flattened lat×lon slice of cell values. -/
structure DataArray where
  name : String
  dims : List String
  times : List Nat
  data : List (List ℚ)
deriving DecidableEq

/-- Errors corresponding to the `ValueError`s raised by the aggregator. -/
inductive AggError where
  | missingDims (dims : List String)
  | unsupportedSpatial (m : String)
  | unsupportedTemporal (m : String)
  | badFreq (s : String)
deriving DecidableEq

/-! ## Resampling semantics -/

instance instDecEqExcept {ε α : Type} [DecidableEq ε] [DecidableEq α] :
    DecidableEq (Except ε α)
  | .error e, .error f => decidable_of_iff (e = f) (by simp)
  | .error _, .ok _ => isFalse (by simp)
  | .ok _, .error _ => isFalse (by simp)
  | .ok a, .ok b => decidable_of_iff (a = b) (by simp)

/-- The target frequency codes this pipeline passes to `resample`. -/
inductive Freq where
  | H6 | D | M | Q | Y | A | AS | QS
deriving DecidableEq

/-- Parse a frequency string after Python `.upper()`, as `pandas` accepts the
codes used by this repository. -/
def parseFreq (s : String) : Option Freq :=
  if upperStr s = "6H" then some .H6
  else if upperStr s = "D" then some .D
  else if upperStr s = "M" then some .M
  else if upperStr s = "Q" then some .Q
  else if upperStr s = "Y" then some .Y
  else if upperStr s = "A" then some .A
  else if upperStr s = "AS" then some .AS
  else if upperStr s = "QS" then some .QS
  else none

/-- Whether the code's dispatch treats the frequency as calendar-bound
(`target_freq.upper() in ['M', 'Y', 'A', 'AS', 'Q', 'QS']`), selecting
`label="right", closed="right"`; otherwise it selects `label="left",
closed="left"`. -/
def calendarBound : Freq → Bool
  | .M | .Q | .Y | .A | .AS | .QS => true
  | .H6 | .D => false

/-- Start hour of bucket `i` of each frequency's period grid. -/
def periodStartH : Freq → Nat → Nat
  | .H6, i => 6 * i
  | .D, i => 24 * i
  | .M, i => 24 * cumDays i
  | .Q, i => 24 * cumDays (3 * i)
  | .Y, i => 24 * cumDays (12 * i)
  | .A, i => 24 * cumDays (12 * i)
  | .AS, i => 24 * cumDays (12 * i)
  | .QS, i => 24 * cumDays (3 * i)

/-- Length in hours of the fixed-length frequencies. -/
def stepLen : Freq → Nat
  | .H6 => 6
  | .D => 24
  | _ => 1

/-- Bucket index a timestamp is resampled into, under the label/closed
conventions the code passes for that frequency (see module docstring). -/
def bucketOf : Freq → Nat → Nat
  | .H6, t => t / 6
  | .D, t => t / 24
  | .M, t => monthOfDay (t / 24)
  | .Q, t => monthOfDay (t / 24) / 3
  | .Y, t => monthOfDay (t / 24) / 12
  | .A, t => monthOfDay (t / 24) / 12
  | .AS, t => monthOfDay ((t - 1) / 24) / 12
  | .QS, t => monthOfDay ((t - 1) / 24) / 3

/-- Output timestamp (the pandas bin label) of bucket `i`. -/
def labelOf : Freq → Nat → Nat
  | .H6, i => 6 * i
  | .D, i => 24 * i
  | .M, i => 24 * (cumDays (i + 1) - 1)
  | .Q, i => 24 * (cumDays (3 * (i + 1)) - 1)
  | .Y, i => 24 * (cumDays (12 * (i + 1)) - 1)
  | .A, i => 24 * (cumDays (12 * (i + 1)) - 1)
  | .AS, i => 24 * cumDays (12 * (i + 1))
  | .QS, i => 24 * cumDays (3 * (i + 1))

/-- Group the consecutive runs of equal keys of a (time-sorted) list,
keeping each run's key. -/
def groupRuns (key : α → Nat) : List α → List (Nat × List α)
  | [] => []
  | a :: rest =>
    match groupRuns key rest with
    | [] => [(key a, [a])]
    | (k, g) :: tl =>
      if key a = k then (key a, a :: g) :: tl else (key a, [a]) :: (k, g) :: tl

/-- Temporal resampling of a scalar time series: group the stamps into the
frequency's buckets and reduce each bucket with the method, labelling each
output row with the bucket's label. -/
def resampleSeries (f : Freq) (op : List ℚ → ℚ) (ts : List (Nat × ℚ)) :
    List (Nat × ℚ) :=
  (groupRuns (fun p => bucketOf f p.1) ts).map
    (fun g => (labelOf f g.1, op (g.2.map Prod.snd)))

/-- Number of cells per slice of a grid. -/
def nCells (da : DataArray) : Nat := (da.data.head?.getD []).length

/-- Temporal resampling of a grid, preserving the spatial cells: group the
time slices into buckets and reduce each bucket cell-wise. -/
def resampleNC (f : Freq) (op : List ℚ → ℚ) (da : DataArray) : DataArray :=
  let n := nCells da
  let gs := groupRuns (fun p => bucketOf f p.1) (da.times.zip da.data)
  { name := da.name
    dims := da.dims
    times := gs.map (fun g => labelOf f g.1)
    data := gs.map (fun g =>
      (List.range n).map (fun i => op ((g.2.map Prod.snd).map (fun row => row.getD i 0)))) }

/-- Cell `i` of the time slice `j` of a grid (0 outside the grid). -/
def cellVal (d : DataArray) (j i : Nat) : ℚ := (d.data.getD j []).getD i 0

/-- The bucket runs a grid's time slices fall into under a frequency. -/
def timeBuckets (f : Freq) (d : DataArray) : List (Nat × List (Nat × List ℚ)) :=
  groupRuns (fun p => bucketOf f p.1) (d.times.zip d.data)

/-- The values of cell `i` across a bucket's time slices. -/
def groupCells (g : List (Nat × List ℚ)) (i : Nat) : List ℚ :=
  (g.map Prod.snd).map (fun row => row.getD i 0)

/-! ## `pd.infer_freq` -/

/-- All consecutive spacings equal `d` and strictly increasing. -/
def allDiffsEq (d : Nat) : List Nat → Bool
  | [] => true
  | [_] => true
  | a :: b :: rest => (a < b && b - a == d) && allDiffsEq d (b :: rest)

/-- Consecutive integers. -/
def consecIdx : List Nat → Bool
  | [] => true
  | [_] => true
  | a :: b :: rest => (b == a + 1) && consecIdx (b :: rest)

/-- The stamp is midnight of the last day of its month. -/
def isMonthEndStamp (t : Nat) : Bool := t == labelOf .M (bucketOf .M t)

/-- The stamp is midnight of the last day of its year. -/
def isYearEndStamp (t : Nat) : Bool := t == labelOf .Y (bucketOf .Y t)

/-- The stamp is midnight of the last day of its quarter. -/
def isQuarterEndStamp (t : Nat) : Bool := t == labelOf .Q (bucketOf .Q t)

/-- The stamp is midnight of the first day of its month. -/
def isMonthStartStamp (t : Nat) : Bool := t == periodStartH .M (bucketOf .M t)

/-- The stamp is midnight of the first day of its year. -/
def isYearStartStamp (t : Nat) : Bool := t == periodStartH .Y (bucketOf .Y t)

/-- The stamp is midnight of the first day of its quarter. -/
def isQuarterStartStamp (t : Nat) : Bool := t == periodStartH .Q (bucketOf .Q t)

/-- Embedding of `pd.infer_freq` for time axes of at least three stamps, the
domain on which the real call returns: year/quarter/month-end stamps give
`"A-DEC"`/`"Q-DEC"`/`"M"`, year/quarter/month-start stamps give
`"AS-JAN"`/`"QS-JAN"`/`"MS"`, regular spacings give
`"D"`/`"<n>D"`/`"H"`/`"<n>H"`, and any other pattern gives `none` (pandas
`None`). On fewer than three stamps `pd.infer_freq` instead raises a
`ValueError`, at line 43 of `temporal_aggregator.py`, outside any `try`, so
the whole aggregation call aborts there; the embedding returns `none`, and
theorems about the resampling path therefore carry an explicit
`3 ≤ times.length` hypothesis. -/
def inferFreq (times : List Nat) : Option String :=
  match times with
  | t0 :: t1 :: _ :: _ =>
    if times.all isYearEndStamp && consecIdx (times.map (bucketOf .Y)) then
      some "A-DEC"
    else if times.all isYearStartStamp && consecIdx (times.map (bucketOf .Y)) then
      some "AS-JAN"
    else if times.all isQuarterEndStamp && consecIdx (times.map (bucketOf .Q)) then
      some "Q-DEC"
    else if times.all isQuarterStartStamp && consecIdx (times.map (bucketOf .Q)) then
      some "QS-JAN"
    else if times.all isMonthEndStamp && consecIdx (times.map (bucketOf .M)) then
      some "M"
    else if times.all isMonthStartStamp && consecIdx (times.map (bucketOf .M)) then
      some "MS"
    else
      let d := t1 - t0
      if t0 < t1 && allDiffsEq d times then
        if d = 24 then some "D"
        else if d % 24 = 0 then some (toString (d / 24) ++ "D")
        else if d = 1 then some "H"
        else some (toString d ++ "H")
      else none
  | _ => none

/-! ## `temporal_aggregator.py` -/

/-- Embedding of `_perform_spatial_aggregation`: reject a grid missing either
spatial axis, then dispatch on the stripped, lowercased method name and
collapse every slice to a scalar. -/
def perform_spatial_aggregation (da : DataArray) (sm : String) :
    Except AggError (List (Nat × ℚ)) :=
  if "lat" ∈ da.dims ∧ "lon" ∈ da.dims then
    match methodOp (normalizeMethod sm) with
    | some op => .ok (da.times.zip (da.data.map op))
    | none => .error (.unsupportedSpatial sm)
  else .error (.missingDims da.dims)

/-- The series key `f"{original_var_name}_{spatial_method}"` built by
`aggregate_data_to_timeseries`. -/
def varKey (da : DataArray) (sm : String) : String :=
  (if da.name = "" then "unknown_var" else da.name) ++ "_" ++ sm

/-- The 6-hour backward label shift applied when no resampling occurred and
the target frequency is `6H`. -/
def shift6 (ts : List (Nat × ℚ)) : List (Nat × ℚ) := ts.map (fun p => (p.1 - 6, p.2))

/-- The check at the top of `aggregate_data_to_timeseries`: resampling is
skipped when the inferred input frequency starts with the target
(`input_freq_str.upper().startswith(target_freq.upper())`). -/
def resamplingNeeded (times : List Nat) (target : String) : Bool :=
  match inferFreq times with
  | some s => !(startsWithPy (upperStr s) (upperStr target))
  | none => true

/-- The resampling step of the time-series path: creating the resampler
validates the frequency; then the stripped, lowercased temporal method is
dispatched. -/
def resampleSeriesStep (target tm : String) (ts : List (Nat × ℚ)) :
    Except AggError (List (Nat × ℚ)) :=
  match parseFreq target with
  | none => .error (.badFreq target)
  | some f =>
    match methodOp (normalizeMethod tm) with
    | none => .error (.unsupportedTemporal tm)
    | some op => .ok (resampleSeries f op ts)

/-- One iteration of the `for spatial_method in spatial_agg_methods` loop of
`aggregate_data_to_timeseries`: any error is caught and logged and the
method skipped; an empty result is also skipped. -/
def tsEntry (da : DataArray) (target tm sm : String) :
    Option (String × List (Nat × ℚ)) :=
  match perform_spatial_aggregation da sm with
  | .error _ => none
  | .ok ts =>
    let res : Except AggError (List (Nat × ℚ)) :=
      if resamplingNeeded da.times target then resampleSeriesStep target tm ts
      else .ok (if upperStr target = "6H" then shift6 ts else ts)
    match res with
    | .error _ => none
    | .ok r => if r.isEmpty then none else some (varKey da sm, r)

/-- Embedding of `aggregate_data_to_timeseries`: an empty mapping for an
absent grid, otherwise the per-spatial-method series, keyed by
`varKey`, in method order. -/
def aggregate_data_to_timeseries (da? : Option DataArray) (target : String)
    (sms : List String) (tm : String) : List (String × List (Nat × ℚ)) :=
  match da? with
  | none => []
  | some da => sms.filterMap (tsEntry da target tm)

/-- Embedding of `aggregate_data_to_netcdf`: `none` for an absent grid; an
unsupported temporal method (checked before the `try` block) is raised to
the caller; a failure inside the resampling step is caught and `none`
returned. -/
def aggregate_data_to_netcdf (da? : Option DataArray) (target tm : String) :
    Except AggError (Option DataArray) :=
  match da? with
  | none => .ok none
  | some da =>
    let nm := normalizeMethod tm
    match methodOp nm with
    | none => .error (.unsupportedTemporal tm)
    | some op =>
      match parseFreq target with
      | none => .ok none
      | some f => .ok (some (resampleNC f op da))

/-- The grid a caller of `aggregate_data_to_netcdf` chains on. -/
def gridOf : Except AggError (Option DataArray) → Option DataArray
  | .ok g => g
  | .error _ => none

/-- Follows the spec's words, not the source (for comparison with
`aggregate_data_to_timeseries`): apply the temporal reduction first and the
spatial reduction second, so each series value is the spatial reduction of a
temporally resampled grid. -/
def aggregate_timeseries_temporal_first (da? : Option DataArray)
    (target : String) (sms : List String) (tm : String) :
    List (String × List (Nat × ℚ)) :=
  match da? with
  | none => []
  | some da =>
    sms.filterMap (fun sm =>
      match parseFreq target, methodOp (normalizeMethod tm) with
      | some f, some op =>
        match perform_spatial_aggregation (resampleNC f op da) sm with
        | .ok ts => if ts.isEmpty then none else some (varKey da sm, ts)
        | .error _ => none
      | _, _ => none)

/-! ## `__main__.py`: discharge depth path -/

/-- The per-cell depth conversion `(rate * 86400 * 1000) / area` applied to
one time slice, with the area grid aligned cell by cell. -/
def depthRow (area row : List ℚ) : List ℚ :=
  row.zipWith (fun v a => v * 86400 * 1000 / a) area

/-- Embedding of PATH 1 of the discharge handling in `process_variable`
(lines 77-93): average (`mean`) 6-hour rates down to daily when the native
timestep is 6 hours, convert to a daily depth grid in mm, then accumulate by
`sum` to monthly and by `sum` again to yearly. Returns the
(daily, monthly, yearly) depth grids. -/
def process_discharge_depth (da : DataArray) (area : List ℚ)
    (inputTimestepHours : Nat) : DataArray × DataArray × DataArray :=
  let dailyRate := if inputTimestepHours = 6 then resampleNC .D listMean da else da
  let dailyMM : DataArray :=
    { name := da.name ++ "_mm"
      dims := dailyRate.dims
      times := dailyRate.times
      data := dailyRate.data.map (depthRow area) }
  let monthlyMM := resampleNC .M listSum dailyMM
  let yearlyMM := resampleNC .Y listSum monthlyMM
  (dailyMM, monthlyMM, yearlyMM)

/-! ## `__main__.py`: standard chain with resume logic -/

/-- The per-variable configuration and environment `process_variable`
unpacks, with the results of the three `os.path.exists` checks and of the
two possible `load_lisflood_variable_data` resume loads. -/
structure StdConfig where
  fluxesVars : List String
  fluxesAggType : String
  statesVars : List String
  statesAggType : String
  inputTimestepHours : Nat
  spatialAggMethods : List String
  saveAggNcMaps : Bool
  overwrite : Bool
  yearlyExists : Bool
  monthlyExists : Bool
  dailyExists : Bool
  loadMonthly : Option DataArray
  loadDaily : Option DataArray
deriving DecidableEq

/-- An output file written by the standard chain: a time-series CSV or an
aggregated NetCDF grid, under the given frequency directory. -/
inductive OutEvent where
  | saveTS (freq : String) (ts : List (String × List (Nat × ℚ)))
  | saveNC (freq : String) (da : DataArray)
deriving DecidableEq

/-- The chain loop of `process_variable` (lines 164-180): advance one
resolution step at a time; a `none` grid halts the chain, an uncaught
aggregation error propagates. -/
def chainLoop (cfg : StdConfig) (tm : String) :
    DataArray → List String → Except AggError (List OutEvent)
  | _, [] => .ok []
  | da, f :: rest => do
    let r ← aggregate_data_to_netcdf (some da) f tm
    match r with
    | none => .ok []
    | some nextDa => do
      let tail ← chainLoop cfg tm nextDa rest
      .ok ((if cfg.saveAggNcMaps then [OutEvent.saveNC f nextDa] else []) ++
        (OutEvent.saveTS f
          (aggregate_data_to_timeseries (some nextDa) f cfg.spatialAggMethods tm) :: tail))

/-- The remaining aggregation targets for a chain starting at the given
frequency (lines 159-162). -/
def aggregationChain (curFreq : String) : List String :=
  if curFreq = "6H" then ["D", "M", "Y"]
  else if curFreq = "D" then ["M", "Y"]
  else if curFreq = "M" then ["Y"] else []

/-- Embedding of the standard flux/state path of `process_variable`
(lines 110-181): classification, the overwrite/resume checks in order
(yearly, monthly, daily-only-if-6-hour), then the time series at the start
resolution followed by the chain. The result is the list of files written. -/
def process_variable_standard (lisfVar : String) (cfg : StdConfig)
    (daOriginal : DataArray) : Except AggError (List OutEvent) :=
  let tm? : Option String :=
    if lisfVar ∈ cfg.fluxesVars then some cfg.fluxesAggType
    else if lisfVar ∈ cfg.statesVars then some cfg.statesAggType
    else none
  match tm? with
  | none => .ok []
  | some tm =>
    let nativeFreq := if cfg.inputTimestepHours = 6 then "6H" else "D"
    if cfg.overwrite = false ∧ cfg.yearlyExists then .ok []
    else
      let start : Option DataArray × String :=
        if cfg.overwrite = false ∧ cfg.monthlyExists then (cfg.loadMonthly, "M")
        else if cfg.overwrite = false ∧ cfg.dailyExists ∧ cfg.inputTimestepHours = 6 then
          (cfg.loadDaily, "D")
        else (some daOriginal, nativeFreq)
      match start.1 with
      | none => .ok []
      | some daCur => do
        let tail ← chainLoop cfg tm daCur (aggregationChain start.2)
        .ok (OutEvent.saveTS start.2
          (aggregate_data_to_timeseries (some daCur) start.2 cfg.spatialAggMethods tm) :: tail)

/-! ## Lemmas: calendar -/

theorem monthLen_pos (m : Nat) : 0 < monthLen m := by
  unfold monthLen
  split
  · split <;> omega
  · split <;> omega

theorem cumDays_strictMono : StrictMono cumDays := by
  apply strictMono_nat_of_lt_succ
  intro n
  have := monthLen_pos n
  simp only [cumDays]
  omega

theorem monthOfDayAux_spec (fuel : Nat) :
    ∀ m d, d < fuel →
      cumDays (monthOfDayAux fuel m d) ≤ cumDays m + d ∧
        cumDays m + d < cumDays (monthOfDayAux fuel m d + 1) ∧
        m ≤ monthOfDayAux fuel m d := by
  induction fuel with
  | zero => intro m d h; omega
  | succ fuel ih =>
    intro m d _
    simp only [monthOfDayAux]
    split
    · refine ⟨Nat.le_add_right _ _, ?_, Nat.le_refl _⟩
      have hc : cumDays (m + 1) = cumDays m + monthLen m := rfl
      omega
    · rename_i h
      have hpos := monthLen_pos m
      have hd : d - monthLen m < fuel := by omega
      have := ih (m + 1) (d - monthLen m) hd
      have hc : cumDays (m + 1) = cumDays m + monthLen m := rfl
      refine ⟨?_, ?_, ?_⟩ <;> omega

theorem monthOfDay_le (d : Nat) : cumDays (monthOfDay d) ≤ d := by
  have := monthOfDayAux_spec (d + 1) 0 d (by omega)
  simpa [monthOfDay, cumDays] using this.1

theorem monthOfDay_lt (d : Nat) : d < cumDays (monthOfDay d + 1) := by
  have := monthOfDayAux_spec (d + 1) 0 d (by omega)
  simpa [monthOfDay, cumDays] using this.2.1

theorem monthOfDay_eq_of_le_of_lt {d m : Nat} (h1 : cumDays m ≤ d)
    (h2 : d < cumDays (m + 1)) : monthOfDay d = m := by
  have hle := monthOfDay_le d
  have hlt := monthOfDay_lt d
  by_contra hne
  rcases Nat.lt_or_ge (monthOfDay d) m with h | h
  · have : cumDays (monthOfDay d + 1) ≤ cumDays m := cumDays_strictMono.monotone h
    omega
  · have hgt : m < monthOfDay d := by omega
    have : cumDays (m + 1) ≤ cumDays (monthOfDay d) := cumDays_strictMono.monotone hgt
    omega

/-! ## Lemmas: runs of equal keys -/

theorem groupRuns_ne_nil (key : α → Nat) (a : α) (l : List α) :
    groupRuns key (a :: l) ≠ [] := by
  simp only [groupRuns]
  split
  · simp
  · split <;> simp

theorem eq_nil_of_groupRuns_eq_nil {key : α → Nat} {l : List α}
    (h : groupRuns key l = []) : l = [] := by
  cases l with
  | nil => rfl
  | cons a rest => exact absurd h (groupRuns_ne_nil key a rest)

theorem groupRuns_cons_of_eq {key : α → Nat} {l : List α} {k0 : Nat}
    {g0 : List α} {tl : List (Nat × List α)} (a : α)
    (hg : groupRuns key l = (k0, g0) :: tl) (hk : key a = k0) :
    groupRuns key (a :: l) = (k0, a :: g0) :: tl := by
  simp only [groupRuns, hg]
  simp [hk]

theorem groupRuns_cons_of_ne {key : α → Nat} {l : List α} {k0 : Nat}
    {g0 : List α} {tl : List (Nat × List α)} (a : α)
    (hg : groupRuns key l = (k0, g0) :: tl) (hk : ¬ key a = k0) :
    groupRuns key (a :: l) = (key a, [a]) :: (k0, g0) :: tl := by
  simp only [groupRuns, hg]
  simp [hk]

theorem groupRuns_singleton {key : α → Nat} {l : List α} (a : α)
    (hg : groupRuns key l = []) :
    groupRuns key (a :: l) = [(key a, [a])] := by
  simp only [groupRuns, hg]

theorem groupRuns_map (key : β → Nat) (f : α → β) (l : List α) :
    groupRuns key (l.map f)
      = (groupRuns (fun a => key (f a)) l).map (fun g => (g.1, g.2.map f)) := by
  induction l with
  | nil => rfl
  | cons a rest ih =>
    cases hg : groupRuns (fun a => key (f a)) rest with
    | nil =>
      rw [eq_nil_of_groupRuns_eq_nil hg]
      simp [groupRuns]
    | cons p tl =>
      obtain ⟨k, g⟩ := p
      rw [hg] at ih
      by_cases hk : key (f a) = k
      · rw [List.map_cons, groupRuns_cons_of_eq (f a) (by simpa using ih) hk,
          groupRuns_cons_of_eq a hg hk]
        simp
      · rw [List.map_cons, groupRuns_cons_of_ne (f a) (by simpa using ih) hk,
          groupRuns_cons_of_ne a hg hk]
        simp

theorem groupRuns_fst_cons (m : Nat → Nat) (k0 : Nat) (x y : List α)
    (tlG : List (Nat × List α)) :
    ∃ GG tlH,
      groupRuns (fun g => m g.1) ((k0, x) :: tlG) = (m k0, (k0, x) :: GG) :: tlH ∧
        groupRuns (fun g => m g.1) ((k0, y) :: tlG) = (m k0, (k0, y) :: GG) :: tlH := by
  cases hT : groupRuns (fun g : Nat × List α => m g.1) tlG with
  | nil =>
    exact ⟨[], [], groupRuns_singleton _ hT, groupRuns_singleton _ hT⟩
  | cons q tlH =>
    obtain ⟨K, GG⟩ := q
    by_cases hK : m k0 = K
    · exact ⟨GG, tlH, by
        rw [groupRuns_cons_of_eq _ hT hK, hK], by
        rw [groupRuns_cons_of_eq _ hT hK, hK]⟩
    · exact ⟨[], (K, GG) :: tlH, by
        rw [groupRuns_cons_of_ne _ hT hK], by
        rw [groupRuns_cons_of_ne _ hT hK]⟩

theorem groupRuns_comp (m : Nat → Nat) (key : α → Nat) (l : List α) :
    groupRuns (fun a => m (key a)) l
      = (groupRuns (fun g => m g.1) (groupRuns key l)).map
          (fun G => (G.1, (G.2.map Prod.snd).flatten)) := by
  induction l with
  | nil => rfl
  | cons a rest ih =>
    cases hg : groupRuns key rest with
    | nil =>
      rw [eq_nil_of_groupRuns_eq_nil hg]
      simp [groupRuns]
    | cons p tlG =>
      obtain ⟨k0, g0⟩ := p
      rw [hg] at ih
      by_cases hk : key a = k0
      · have hmk : m (key a) = m k0 := by rw [hk]
        have hinner := groupRuns_cons_of_eq a hg hk
        obtain ⟨GG, tlH, hOB1, hOB2⟩ := groupRuns_fst_cons m k0 g0 (a :: g0) tlG
        rw [hOB1] at ih
        simp only [List.map_cons] at ih
        rw [groupRuns_cons_of_eq a ih hmk, hinner, hOB2]
        simp
      · have hinner := groupRuns_cons_of_ne a hg hk
        obtain ⟨GG, tlH, hOB1, _⟩ := groupRuns_fst_cons m k0 g0 g0 tlG
        rw [hOB1] at ih
        simp only [List.map_cons] at ih
        by_cases hmk : m (key a) = m k0
        · rw [groupRuns_cons_of_eq a ih hmk, hinner,
            groupRuns_cons_of_eq ((key a, [a]) : Nat × List α) hOB1 hmk]
          simp
        · rw [groupRuns_cons_of_ne a ih hmk, hinner,
            groupRuns_cons_of_ne ((key a, [a]) : Nat × List α) hOB1 hmk]
          simp

theorem getD_range_map (f : Nat → ℚ) (n i : Nat) (h : i < n) :
    ((List.range n).map f).getD i 0 = f i := by
  simp [List.getD_eq_getElem?_getD, List.getElem?_map, List.getElem?_range h]

theorem getElem?_range_map (f : Nat → ℚ) (n i : Nat) (h : i < n) :
    (((List.range n).map f)[i]?).getD 0 = f i := by
  simp [List.getElem?_map, List.getElem?_range h]

/-! ## Lemmas: resampling -/

theorem bucketOf_M_label_D (k : Nat) : bucketOf .M (labelOf .D k) = monthOfDay k := by
  simp [bucketOf, labelOf, Nat.mul_div_cancel_left]

theorem groupRuns_key_congr {k1 k2 : α → Nat} (h : ∀ a, k1 a = k2 a)
    (l : List α) : groupRuns k1 l = groupRuns k2 l := by
  rw [funext h]

theorem resampleNC_sum_day_month (da : DataArray) :
    resampleNC .M listSum (resampleNC .D listSum da) = resampleNC .M listSum da := by
  cases hGDc : groupRuns (fun p : Nat × List ℚ => bucketOf .D p.1) (da.times.zip da.data) with
  | nil =>
    have hpnil : da.times.zip da.data = [] := eq_nil_of_groupRuns_eq_nil hGDc
    simp [resampleNC, hpnil, hGDc, groupRuns]
  | cons g0 GDtl =>
    have hGM : groupRuns (fun p : Nat × List ℚ => bucketOf .M p.1) (da.times.zip da.data)
        = (groupRuns (fun g : Nat × List (Nat × List ℚ) => monthOfDay g.1) (g0 :: GDtl)).map
            (fun G => (G.1, (G.2.map Prod.snd).flatten)) := by
      rw [← hGDc]
      exact groupRuns_comp monthOfDay (fun p : Nat × List ℚ => p.1 / 24) (da.times.zip da.data)
    simp only [resampleNC, nCells]
    rw [hGDc, List.zip_map', groupRuns_map]
    simp only [List.map_cons, List.head?_cons, Option.getD_some, List.length_map,
      List.length_range]
    simp only [bucketOf_M_label_D]
    rw [hGM]
    simp only [DataArray.mk.injEq]
    refine ⟨trivial, trivial, ?_, ?_⟩
    · simp [List.map_map, Function.comp]
    · rw [List.map_map, List.map_map]
      refine List.map_congr_left (fun G _ => ?_)
      refine List.map_congr_left (fun i hi => ?_)
      have hin : i < (da.data.head?.getD []).length := List.mem_range.mp hi
      simp only [Function.comp_apply, List.map_map, Function.comp]
      simp only [listSum, List.map_flatten, List.sum_flatten, List.map_map, Function.comp]
      refine congrArg List.sum (List.map_congr_left (fun a _ => ?_))
      dsimp only [Function.comp]
      rw [getD_range_map _ _ _ hin]

/-! ## Lemmas: the time-series loop -/

theorem startsWithPy_self (s : String) : startsWithPy s s = true := by
  unfold startsWithPy
  rw [List.isPrefixOf_iff_prefix]

theorem string_append_cancel_left {s a b : String} (h : s ++ a = s ++ b) : a = b := by
  have hd : s.data ++ a.data = s.data ++ b.data := by
    have := congrArg String.data h
    simpa using this
  exact String.ext (List.append_cancel_left hd)

theorem varKey_inj (da : DataArray) {a b : String} (h : varKey da a = varKey da b) :
    a = b := by
  unfold varKey at h
  exact string_append_cancel_left h

theorem tsEntry_key {da : DataArray} {target tm sm : String}
    {e : String × List (Nat × ℚ)} (h : tsEntry da target tm sm = some e) :
    e.1 = varKey da sm := by
  cases hp : perform_spatial_aggregation da sm with
  | error err => simp [tsEntry, hp] at h
  | ok ts =>
    cases hres : (if resamplingNeeded da.times target then resampleSeriesStep target tm ts
        else .ok (if upperStr target = "6H" then shift6 ts else ts)) with
    | error err => simp [tsEntry, hp, hres] at h
    | ok r =>
      by_cases hemp : r.isEmpty
      · simp [tsEntry, hp, hres, hemp] at h
      · simp only [tsEntry, hp, hres, hemp, Bool.false_eq_true, if_false,
          Option.some.injEq] at h
        rw [← h]

theorem resamplingNeeded_eq_false {times : List Nat} {target s : String}
    (hs : inferFreq times = some s) (heq : upperStr s = upperStr target) :
    resamplingNeeded times target = false := by
  simp [resamplingNeeded, hs, heq, startsWithPy_self]

theorem tsEntry_noresample {da : DataArray} (target tm sm : String)
    (hneed : resamplingNeeded da.times target = false)
    {ts : List (Nat × ℚ)} (hok : perform_spatial_aggregation da sm = .ok ts)
    (hne : ts ≠ []) :
    tsEntry da target tm sm
      = some (varKey da sm, if upperStr target = "6H" then shift6 ts else ts) := by
  obtain ⟨p, ts2, rfl⟩ : ∃ p ts2, ts = p :: ts2 := by
    cases ts with
    | nil => exact absurd rfl hne
    | cons a l => exact ⟨a, l, rfl⟩
  have hisemp : (if upperStr target = "6H" then shift6 (p :: ts2) else p :: ts2).isEmpty
      = false := by
    split <;> rfl
  simp [tsEntry, hok, hneed, hisemp]

theorem tsEntry_resample {da : DataArray} (target tm sm : String)
    (hneed : resamplingNeeded da.times target = true)
    {ts r : List (Nat × ℚ)} (hok : perform_spatial_aggregation da sm = .ok ts)
    (hr : resampleSeriesStep target tm ts = .ok r) (hne : r ≠ []) :
    tsEntry da target tm sm = some (varKey da sm, r) := by
  have hisemp : r.isEmpty = false := by
    cases r with
    | nil => exact absurd rfl hne
    | cons a l => rfl
  simp [tsEntry, hok, hneed, hr, hisemp]

theorem lookup_tsEntry {da : DataArray} (target tm : String) {sms : List String}
    {sm : String} (hsm : sm ∈ sms) {r : List (Nat × ℚ)}
    (he : tsEntry da target tm sm = some (varKey da sm, r)) :
    List.lookup (varKey da sm) (aggregate_data_to_timeseries (some da) target sms tm)
      = some r := by
  induction sms with
  | nil => cases hsm
  | cons h t ih =>
    show List.lookup (varKey da sm) ((h :: t).filterMap (tsEntry da target tm)) = some r
    by_cases hh : h = sm
    · subst hh
      simp [List.filterMap_cons, he, List.lookup]
    · have hmem : sm ∈ t := by
        rcases List.mem_cons.mp hsm with h1 | h1
        · exact absurd h1.symm hh
        · exact h1
      cases hE : tsEntry da target tm h with
      | none =>
        simp only [List.filterMap_cons, hE]
        exact ih hmem
      | some e =>
        have hk : e.1 = varKey da h := tsEntry_key hE
        have hne : (varKey da sm == e.1) = false := by
          rw [hk]
          simp only [beq_eq_false_iff_ne, ne_eq]
          intro hEq
          exact hh (varKey_inj da hEq).symm
        simp only [List.filterMap_cons, hE, List.lookup, hne]
        exact ih hmem

theorem perform_spatial_eq {da : DataArray} {sm : String} {ts : List (Nat × ℚ)}
    (h : perform_spatial_aggregation da sm = .ok ts) :
    ∃ op, methodOp (normalizeMethod sm) = some op
      ∧ ts = da.times.zip (da.data.map op) := by
  unfold perform_spatial_aggregation at h
  split at h
  · cases hm : methodOp (normalizeMethod sm) with
    | none => rw [hm] at h; cases h
    | some op =>
      rw [hm] at h
      cases h
      exact ⟨op, rfl, rfl⟩
  · cases h

theorem methodOp_some_iff (nm : String) :
    (∃ op, methodOp nm = some op) ↔ nm ∈ ["mean", "sum", "max", "min", "median"] := by
  unfold methodOp
  split_ifs <;> simp_all

theorem methodOp_none_iff (nm : String) :
    methodOp nm = none ↔ nm ∉ ["mean", "sum", "max", "min", "median"] := by
  unfold methodOp
  split_ifs <;> simp_all

/-! ## Claim theorems -/

/-- C8: aggregating a grid directly to monthly with method `sum` via the Grid
Aggregator equals first aggregating 6-hour to daily with `sum` and then the
daily result to monthly with `sum`; `aggregate_data_to_netcdf` chained
through `D` agrees with the direct call for every input grid. -/
theorem c8_chain_equivalence (da : DataArray) :
    aggregate_data_to_netcdf (gridOf (aggregate_data_to_netcdf (some da) "D" "sum"))
        "M" "sum"
      = aggregate_data_to_netcdf (some da) "M" "sum" := by
  have h1 : aggregate_data_to_netcdf (some da) "D" "sum"
      = .ok (some (resampleNC .D listSum da)) := by
    with_unfolding_all rfl
  have h2 : ∀ x : DataArray, aggregate_data_to_netcdf (some x) "M" "sum"
      = .ok (some (resampleNC .M listSum x)) := fun x => by
    with_unfolding_all rfl
  rw [h1]
  show aggregate_data_to_netcdf (some (resampleNC .D listSum da)) "M" "sum" = _
  rw [h2, h2, resampleNC_sum_day_month]

/-- C4: when the inferred frequency of the input's time axis equals the
requested target frequency, the Time-Series Aggregator skips temporal
resampling: the series returned for a spatial method is exactly the
per-timestep spatial reduction of the input, with values unchanged, and the
timestamps are altered only by the 6-hour label shift when the target is
`6H`. -/
theorem c4_noop_when_freq_matches (da : DataArray) (target tm sm : String)
    (sms : List String) (s : String)
    (hs : inferFreq da.times = some s) (heq : upperStr s = upperStr target)
    (hsm : sm ∈ sms) (ts : List (Nat × ℚ))
    (hok : perform_spatial_aggregation da sm = .ok ts) (hne : ts ≠ []) :
    List.lookup (varKey da sm) (aggregate_data_to_timeseries (some da) target sms tm)
        = some (if upperStr target = "6H" then shift6 ts else ts)
      ∧ (if upperStr target = "6H" then shift6 ts else ts).map Prod.snd
        = ts.map Prod.snd := by
  refine ⟨lookup_tsEntry target tm hsm
    (tsEntry_noresample target tm sm (resamplingNeeded_eq_false hs heq) hok hne), ?_⟩
  split
  · simp [shift6, List.map_map]
  · rfl

theorem c4_noop_when_freq_matches_witness :
    inferFreq ([0, 24, 48] : List Nat) = some "D"
      ∧ List.lookup
          (varKey ⟨"v", ["time", "lat", "lon"], [0, 24, 48], [[1, 2], [3, 4], [5, 6]]⟩
            "mean")
          (aggregate_data_to_timeseries
            (some ⟨"v", ["time", "lat", "lon"], [0, 24, 48], [[1, 2], [3, 4], [5, 6]]⟩)
            "D" ["mean"] "sum")
        = some (if upperStr "D" = "6H"
            then shift6 [(0, 3/2), (24, 7/2), (48, 11/2)]
            else [(0, 3/2), (24, 7/2), (48, 11/2)]) := by
  refine ⟨by decide, ?_⟩
  exact (c4_noop_when_freq_matches
    ⟨"v", ["time", "lat", "lon"], [0, 24, 48], [[1, 2], [3, 4], [5, 6]]⟩
    "D" "sum" "mean" ["mean"] "D" (by decide) rfl (by simp)
    [(0, 3/2), (24, 7/2), (48, 11/2)] (by with_unfolding_all rfl) (by simp)).1

/-- C6: when the input is 6-hourly and the target frequency is `6H` (so no
resampling occurs), every output timestamp equals the corresponding input
timestamp shifted backward by exactly 6 hours, marking the start of its
accumulation interval, and the series values are unchanged. -/
theorem c6_sixhour_label_shift (da : DataArray) (tm sm : String) (sms : List String)
    (h6 : inferFreq da.times = some "6H") (hsm : sm ∈ sms)
    (hge : ∀ t ∈ da.times, 6 ≤ t)
    (ts : List (Nat × ℚ)) (hok : perform_spatial_aggregation da sm = .ok ts)
    (hne : ts ≠ []) :
    List.lookup (varKey da sm) (aggregate_data_to_timeseries (some da) "6H" sms tm)
        = some (shift6 ts)
      ∧ (∀ p ∈ ts, p.1 - 6 + 6 = p.1)
      ∧ (shift6 ts).map Prod.snd = ts.map Prod.snd := by
  have h1 := lookup_tsEntry "6H" tm hsm
    (tsEntry_noresample "6H" tm sm (resamplingNeeded_eq_false h6 rfl) hok hne)
  rw [if_pos (by with_unfolding_all rfl : upperStr "6H" = "6H")] at h1
  refine ⟨h1, ?_, by simp [shift6, List.map_map]⟩
  intro p hp
  obtain ⟨op, _, hts⟩ := perform_spatial_eq hok
  rw [hts] at hp
  have hmem : p.1 ∈ da.times := (List.of_mem_zip hp).1
  have := hge p.1 hmem
  omega

theorem c6_sixhour_label_shift_witness :
    inferFreq ([6, 12, 18] : List Nat) = some "6H"
      ∧ List.lookup
          (varKey ⟨"v", ["time", "lat", "lon"], [6, 12, 18], [[1, 2], [3, 4], [5, 6]]⟩
            "sum")
          (aggregate_data_to_timeseries
            (some ⟨"v", ["time", "lat", "lon"], [6, 12, 18], [[1, 2], [3, 4], [5, 6]]⟩)
            "6H" ["sum"] "mean")
        = some (shift6 [(6, 3), (12, 7), (18, 11)]) := by
  refine ⟨by decide, ?_⟩
  exact (c6_sixhour_label_shift
    ⟨"v", ["time", "lat", "lon"], [6, 12, 18], [[1, 2], [3, 4], [5, 6]]⟩
    "mean" "sum" ["sum"] (by decide) (by simp) (by decide)
    [(6, 3), (12, 7), (18, 11)] (by with_unfolding_all rfl) (by simp)).1

/-- C1 counterexample: on a 6-hourly grid with two cells and values
`[[0,10],[10,0],[0,10]]`, target `D`, spatial method `min` and temporal
method `max`, the source computes the spatial reduction first (series
`v_min = 0`), while the claimed temporal-first order would give `10`: the
two orders disagree, so `aggregate_data_to_timeseries` does not equal
spatially reducing the temporally resampled grid. -/
theorem c1_counterexample :
    aggregate_data_to_timeseries
        (some ⟨"v", ["time", "lat", "lon"], [6, 12, 18], [[0, 10], [10, 0], [0, 10]]⟩)
        "D" ["min"] "max"
      = [("v_min", [(0, 0)])]
    ∧ aggregate_timeseries_temporal_first
        (some ⟨"v", ["time", "lat", "lon"], [6, 12, 18], [[0, 10], [10, 0], [0, 10]]⟩)
        "D" ["min"] "max"
      = [("v_min", [(0, 10)])]
    ∧ aggregate_data_to_timeseries
        (some ⟨"v", ["time", "lat", "lon"], [6, 12, 18], [[0, 10], [10, 0], [0, 10]]⟩)
        "D" ["min"] "max"
      ≠ aggregate_timeseries_temporal_first
        (some ⟨"v", ["time", "lat", "lon"], [6, 12, 18], [[0, 10], [10, 0], [0, 10]]⟩)
        "D" ["min"] "max" := by
  refine ⟨by with_unfolding_all rfl, by with_unfolding_all rfl, ?_⟩
  intro h
  have h1 : aggregate_data_to_timeseries
      (some ⟨"v", ["time", "lat", "lon"], [6, 12, 18], [[0, 10], [10, 0], [0, 10]]⟩)
      "D" ["min"] "max" = [("v_min", [(0, 0)])] := by with_unfolding_all rfl
  have h2 : aggregate_timeseries_temporal_first
      (some ⟨"v", ["time", "lat", "lon"], [6, 12, 18], [[0, 10], [10, 0], [0, 10]]⟩)
      "D" ["min"] "max" = [("v_min", [(0, 10)])] := by with_unfolding_all rfl
  rw [h1, h2] at h
  exact absurd h (by with_unfolding_all decide)

/-- C1 amended: on every grid with at least three timestamps (so that
`pd.infer_freq` returns instead of raising) whose inferred frequency does
not prefix-match the target, the Time-Series Aggregator applies the spatial
reduction first and the temporal reduction second: the series it publishes
under `varKey` is the temporal resampling of the spatially reduced
per-timestep series (so for `max`, `min` and `median` each bucket value is
the reduction over already-spatially-reduced per-timestep values, not over
all raw grid-cell values in the bucket). -/
theorem c1_spatial_first (da : DataArray) (target tm sm : String)
    (sms : List String) (hsm : sm ∈ sms)
    (_hlen : 3 ≤ da.times.length)
    (hneed : resamplingNeeded da.times target = true)
    (ts r : List (Nat × ℚ)) (hok : perform_spatial_aggregation da sm = .ok ts)
    (hr : resampleSeriesStep target tm ts = .ok r) (hne : r ≠ []) :
    List.lookup (varKey da sm) (aggregate_data_to_timeseries (some da) target sms tm)
      = some r :=
  lookup_tsEntry target tm hsm (tsEntry_resample target tm sm hneed hok hr hne)

theorem c1_spatial_first_witness :
    (3 ≤ ([6, 12, 18] : List Nat).length
        ∧ resamplingNeeded ([6, 12, 18] : List Nat) "D" = true)
      ∧ List.lookup
          (varKey ⟨"v", ["time", "lat", "lon"], [6, 12, 18], [[0, 10], [10, 0], [0, 10]]⟩
            "min")
          (aggregate_data_to_timeseries
            (some ⟨"v", ["time", "lat", "lon"], [6, 12, 18], [[0, 10], [10, 0], [0, 10]]⟩)
            "D" ["min"] "max")
        = some [(0, 0)] := by
  refine ⟨⟨by decide, by decide⟩, ?_⟩
  exact c1_spatial_first
    ⟨"v", ["time", "lat", "lon"], [6, 12, 18], [[0, 10], [10, 0], [0, 10]]⟩
    "D" "max" "min" ["min"] (by simp) (by decide) (by decide)
    [(6, 0), (12, 0), (18, 0)] [(0, 0)]
    (by with_unfolding_all rfl) (by with_unfolding_all rfl) (by simp)

/-- C3 counterexample: for a non-null grid and the unsupported method
`"bogus"`, `aggregate_data_to_netcdf` raises the unsupported-method error to
its caller (exactly what the repository's own test
`test_aggregate_netcdf_invalid_method` expects) instead of catching it and
returning a null result. -/
theorem c3_counterexample :
    aggregate_data_to_netcdf
        (some ⟨"v", ["time", "lat", "lon"], [6, 12, 18], [[0, 10], [10, 0], [0, 10]]⟩)
        "M" "bogus"
      = .error (.unsupportedTemporal "bogus")
    ∧ aggregate_data_to_netcdf
        (some ⟨"v", ["time", "lat", "lon"], [6, 12, 18], [[0, 10], [10, 0], [0, 10]]⟩)
        "M" "bogus"
      ≠ .ok none := by
  refine ⟨by with_unfolding_all rfl, ?_⟩
  intro h
  have h1 : aggregate_data_to_netcdf
      (some ⟨"v", ["time", "lat", "lon"], [6, 12, 18], [[0, 10], [10, 0], [0, 10]]⟩)
      "M" "bogus" = .error (.unsupportedTemporal "bogus") := by with_unfolding_all rfl
  rw [h1] at h
  cases h

/-- C3 amended: for a non-null input grid, an unsupported temporal method
name (after stripping and lowercasing) makes `aggregate_data_to_netcdf`
raise the unsupported-method error to its caller — the validation happens
before the `try` block; only a failure inside the resampling step itself
(here: an unparseable target frequency) is caught, logged, and turned into a
null result. -/
theorem c3_unsupported_method_raises (da : DataArray) (target tm : String) :
    (normalizeMethod tm ∉ ["sum", "mean", "max", "min", "median"] →
      aggregate_data_to_netcdf (some da) target tm
        = .error (.unsupportedTemporal tm))
    ∧ (normalizeMethod tm ∈ ["sum", "mean", "max", "min", "median"] →
        parseFreq target = none →
      aggregate_data_to_netcdf (some da) target tm = .ok none) := by
  constructor
  · intro h
    have hm : methodOp (normalizeMethod tm) = none := by
      rw [methodOp_none_iff]
      intro hmem
      apply h
      simp only [List.mem_cons, List.mem_singleton, List.not_mem_nil, or_false] at hmem ⊢
      tauto
    simp [aggregate_data_to_netcdf, hm]
  · intro h hp
    obtain ⟨op, hop⟩ := (methodOp_some_iff (normalizeMethod tm)).mpr (by
      simp only [List.mem_cons, List.mem_singleton, List.not_mem_nil, or_false] at h ⊢
      tauto)
    simp [aggregate_data_to_netcdf, hop, hp]

theorem c3_unsupported_method_raises_witness :
    normalizeMethod "bogus" ∉ (["sum", "mean", "max", "min", "median"] : List String)
      ∧ aggregate_data_to_netcdf
          (some ⟨"v", ["time", "lat", "lon"], [6, 12, 18], [[0, 10], [10, 0], [0, 10]]⟩)
          "M" "bogus"
        = .error (.unsupportedTemporal "bogus") := by
  refine ⟨by decide, ?_⟩
  exact (c3_unsupported_method_raises
    ⟨"v", ["time", "lat", "lon"], [6, 12, 18], [[0, 10], [10, 0], [0, 10]]⟩
    "M" "bogus").1 (by decide)

/-- C10: `aggregate_data_to_netcdf` checks for an absent input grid before
validating the method name: for a null grid it returns null for every
method-name string, including unsupported ones, raising no error, and an
error result can only arise from a non-null input grid. -/
theorem c10_null_before_method (target tm : String) :
    aggregate_data_to_netcdf none target tm = .ok none
    ∧ ∀ da? : Option DataArray,
        (∃ e, aggregate_data_to_netcdf da? target tm = .error e) → da? ≠ none := by
  refine ⟨rfl, ?_⟩
  rintro da? ⟨e, he⟩ rfl
  rw [show aggregate_data_to_netcdf none target tm = .ok none from rfl] at he
  cases he

theorem c10_null_before_method_witness :
    aggregate_data_to_netcdf none "M" "bogus" = .ok none
    ∧ (some (⟨"v", ["time", "lat", "lon"], [6], [[1]]⟩ : DataArray) : Option DataArray)
        ≠ none := by
  refine ⟨(c10_null_before_method "M" "bogus").1, ?_⟩
  exact (c10_null_before_method "M" "bogus").2
    (some ⟨"v", ["time", "lat", "lon"], [6], [[1]]⟩)
    ⟨.unsupportedTemporal "bogus", by with_unfolding_all rfl⟩

/-- C9: with both spatial axes present, the Spatial Reducer accepts exactly
the method names that strip-and-lowercase to mean, sum, max, min or median
(so `" Mean "` is accepted) and fails with the unsupported-method error for
every other name; whenever either the `lat` or the `lon` axis is absent it
fails with the missing-dimensions error. It is a pure function of its
arguments. -/
theorem c9_spatial_reducer_contract (da : DataArray) (m : String) :
    (("lat" ∈ da.dims ∧ "lon" ∈ da.dims) →
      ((∃ ts, perform_spatial_aggregation da m = .ok ts)
          ↔ normalizeMethod m ∈ ["mean", "sum", "max", "min", "median"])
        ∧ (normalizeMethod m ∉ ["mean", "sum", "max", "min", "median"] →
            perform_spatial_aggregation da m = .error (.unsupportedSpatial m)))
    ∧ (("lat" ∉ da.dims ∨ "lon" ∉ da.dims) →
        perform_spatial_aggregation da m = .error (.missingDims da.dims)) := by
  constructor
  · intro hd
    constructor
    · constructor
      · rintro ⟨ts, hts⟩
        obtain ⟨op, hop, _⟩ := perform_spatial_eq hts
        exact (methodOp_some_iff _).mp ⟨op, hop⟩
      · intro hmem
        obtain ⟨op, hop⟩ := (methodOp_some_iff _).mpr hmem
        exact ⟨da.times.zip (da.data.map op),
          by simp [perform_spatial_aggregation, hd.1, hd.2, hop]⟩
    · intro hmem
      have hm := (methodOp_none_iff _).mpr hmem
      simp [perform_spatial_aggregation, hd.1, hd.2, hm]
  · intro hnd
    have hcond : ¬ ("lat" ∈ da.dims ∧ "lon" ∈ da.dims) := by tauto
    simp [perform_spatial_aggregation, hcond]

theorem c9_spatial_reducer_contract_witness :
    ("lat" ∈ (["time", "lat", "lon"] : List String)
        ∧ "lon" ∈ (["time", "lat", "lon"] : List String))
    ∧ (∃ ts, perform_spatial_aggregation
        ⟨"v", ["time", "lat", "lon"], [6], [[1, 2]]⟩ " Mean " = .ok ts)
    ∧ perform_spatial_aggregation ⟨"v", ["time", "lat", "lon"], [6], [[1, 2]]⟩ "bogus"
        = .error (.unsupportedSpatial "bogus")
    ∧ perform_spatial_aggregation ⟨"v", ["time", "lat"], [6], [[1, 2]]⟩ "mean"
        = .error (.missingDims ["time", "lat"]) := by
  refine ⟨⟨by simp, by simp⟩, ?_, ?_, ?_⟩
  · exact ((c9_spatial_reducer_contract
      ⟨"v", ["time", "lat", "lon"], [6], [[1, 2]]⟩ " Mean ").1
      ⟨by simp, by simp⟩).1.mpr (by decide)
  · exact ((c9_spatial_reducer_contract
      ⟨"v", ["time", "lat", "lon"], [6], [[1, 2]]⟩ "bogus").1
      ⟨by simp, by simp⟩).2 (by decide)
  · exact (c9_spatial_reducer_contract
      ⟨"v", ["time", "lat"], [6], [[1, 2]]⟩ "mean").2 (by simp)

theorem getD_map_lt {α β : Type} (f : α → β) {l : List α} {j : Nat}
    (h : j < l.length) (d1 : α) (d2 : β) :
    (l.map f).getD j d2 = f (l.getD j d1) := by
  simp [List.getD_eq_getElem?_getD, List.getElem?_map, List.getElem?_eq_getElem, h]

theorem getD_zipWith_lt (f : ℚ → ℚ → ℚ) {l1 l2 : List ℚ} {i : Nat}
    (h1 : i < l1.length) (h2 : i < l2.length) :
    (List.zipWith f l1 l2).getD i 0 = f (l1.getD i 0) (l2.getD i 0) := by
  simp [List.getD_eq_getElem?_getD, List.getElem?_zipWith, List.getElem?_eq_getElem,
    h1, h2]

theorem resampleNC_times (f : Freq) (op : List ℚ → ℚ) (d : DataArray) :
    (resampleNC f op d).times = (timeBuckets f d).map (fun g => labelOf f g.1) := rfl

theorem resampleNC_cell (f : Freq) (op : List ℚ → ℚ) (d : DataArray) (j i : Nat)
    (hj : j < (timeBuckets f d).length) (hi : i < nCells d) :
    cellVal (resampleNC f op d) j i
      = op (groupCells ((timeBuckets f d).getD j (0, [])).2 i) := by
  show ((resampleNC f op d).data.getD j []).getD i 0 = _
  have hdata : (resampleNC f op d).data
      = (timeBuckets f d).map (fun g => (List.range (nCells d)).map
          (fun i => op ((g.2.map Prod.snd).map (fun row => row.getD i 0)))) := rfl
  rw [hdata, getD_map_lt _ hj (0, []), getD_range_map _ _ _ hi]
  rfl

/-- C2: the discharge depth path of `process_variable`: at 6-hour native
resolution the rate is first averaged (mean, not summed) down to daily, and
every daily depth cell equals the daily rate times 86400 times 1000 divided
by the cell's area; the monthly depth grid is the per-cell sum of the daily
depth values within each month, and the yearly depth grid the per-cell sum
of the monthly ones; at daily native resolution the daily depth cell is the
native rate cell times 86400 times 1000 divided by the area. -/
theorem c2_discharge_depth (da : DataArray) (area : List ℚ) :
    (process_discharge_depth da area 6).1.times
        = (timeBuckets .D da).map (fun g => labelOf .D g.1)
    ∧ (∀ j i, j < (timeBuckets .D da).length → i < nCells da → i < area.length →
        cellVal (process_discharge_depth da area 6).1 j i
          = listMean (groupCells ((timeBuckets .D da).getD j (0, [])).2 i)
              * 86400 * 1000 / area.getD i 0)
    ∧ (process_discharge_depth da area 6).2.1
        = resampleNC .M listSum (process_discharge_depth da area 6).1
    ∧ (∀ j i, j < (timeBuckets .M (process_discharge_depth da area 6).1).length
          → i < nCells (process_discharge_depth da area 6).1 →
        cellVal (process_discharge_depth da area 6).2.1 j i
          = listSum (groupCells
              ((timeBuckets .M (process_discharge_depth da area 6).1).getD j (0, [])).2 i))
    ∧ (process_discharge_depth da area 6).2.2
        = resampleNC .Y listSum (process_discharge_depth da area 6).2.1
    ∧ (∀ j i, j < (timeBuckets .Y (process_discharge_depth da area 6).2.1).length
          → i < nCells (process_discharge_depth da area 6).2.1 →
        cellVal (process_discharge_depth da area 6).2.2 j i
          = listSum (groupCells
              ((timeBuckets .Y (process_discharge_depth da area 6).2.1).getD j (0, [])).2 i))
    ∧ (∀ j i, j < da.data.length → i < (da.data.getD j []).length → i < area.length →
        cellVal (process_discharge_depth da area 24).1 j i
          = cellVal da j i * 86400 * 1000 / area.getD i 0) := by
  have hdata6 : (process_discharge_depth da area 6).1.data
      = (resampleNC .D listMean da).data.map (depthRow area) := rfl
  have hrdata : (resampleNC .D listMean da).data
      = (timeBuckets .D da).map (fun g => (List.range (nCells da)).map
          (fun i => listMean ((g.2.map Prod.snd).map (fun row => row.getD i 0)))) := rfl
  refine ⟨rfl, ?_, rfl, ?_, rfl, ?_, ?_⟩
  · intro j i hj hi hia
    show ((process_discharge_depth da area 6).1.data.getD j []).getD i 0 = _
    rw [hdata6, getD_map_lt (depthRow area)
      (by rw [hrdata, List.length_map]; exact hj) [], hrdata,
      getD_map_lt _ hj (0, [])]
    unfold depthRow
    rw [getD_zipWith_lt _ (by rw [List.length_map, List.length_range]; exact hi) hia,
      getD_range_map _ _ _ hi]
    rfl
  · intro j i hj hi
    exact resampleNC_cell .M listSum (process_discharge_depth da area 6).1 j i hj hi
  · intro j i hj hi
    exact resampleNC_cell .Y listSum (process_discharge_depth da area 6).2.1 j i hj hi
  · intro j i hj hi hia
    show ((process_discharge_depth da area 24).1.data.getD j []).getD i 0 = _
    have h24 : (process_discharge_depth da area 24).1.data
        = da.data.map (depthRow area) := rfl
    rw [h24, getD_map_lt (depthRow area) hj []]
    unfold depthRow
    rw [getD_zipWith_lt _ hi hia]
    rfl

theorem c2_discharge_depth_witness :
    (0 < (timeBuckets .D ⟨"dis", ["time", "lat", "lon"], [6, 12, 18],
          [[4, 8], [8, 16], [12, 24]]⟩).length
      ∧ 0 < nCells ⟨"dis", ["time", "lat", "lon"], [6, 12, 18],
          [[4, 8], [8, 16], [12, 24]]⟩
      ∧ 0 < ([2, 4] : List ℚ).length)
    ∧ cellVal (process_discharge_depth
          ⟨"dis", ["time", "lat", "lon"], [6, 12, 18], [[4, 8], [8, 16], [12, 24]]⟩
          [2, 4] 6).1 0 0
        = listMean (groupCells
            ((timeBuckets .D ⟨"dis", ["time", "lat", "lon"], [6, 12, 18],
              [[4, 8], [8, 16], [12, 24]]⟩).getD 0 (0, [])).2 0)
            * 86400 * 1000 / ([2, 4] : List ℚ).getD 0 0 := by
  refine ⟨⟨by decide, by decide, by decide⟩, ?_⟩
  exact (c2_discharge_depth
    ⟨"dis", ["time", "lat", "lon"], [6, 12, 18], [[4, 8], [8, 16], [12, 24]]⟩
    [2, 4]).2.1 0 0 (by decide) (by decide) (by decide)

/-- C7: with overwrite false, the resume check of the standard chain
proceeds in order: if the yearly output grid exists the variable is done and
nothing is recomputed or written; else if the monthly grid exists the chain
resumes from the loaded monthly grid (continuing with the monthly
continuation only); else a persisted daily grid is the resume point only
when the native resolution is 6-hour; otherwise processing starts from the
native-resolution grid. -/
theorem c7_resume_order (lisfVar : String) (cfg : StdConfig)
    (daOrig dm dd : DataArray) (tm : String)
    (hov : cfg.overwrite = false)
    (hdm : cfg.loadMonthly = some dm) (hdd : cfg.loadDaily = some dd)
    (htm : (if lisfVar ∈ cfg.fluxesVars then some cfg.fluxesAggType
        else if lisfVar ∈ cfg.statesVars then some cfg.statesAggType else none)
      = some tm) :
    (cfg.yearlyExists = true →
      process_variable_standard lisfVar cfg daOrig = .ok [])
    ∧ (cfg.yearlyExists = false → cfg.monthlyExists = true →
        process_variable_standard lisfVar cfg daOrig
          = (chainLoop cfg tm dm (aggregationChain "M")).map
              (fun tail => OutEvent.saveTS "M"
                (aggregate_data_to_timeseries (some dm) "M" cfg.spatialAggMethods tm)
                :: tail))
    ∧ (cfg.yearlyExists = false → cfg.monthlyExists = false →
        cfg.dailyExists = true → cfg.inputTimestepHours = 6 →
        process_variable_standard lisfVar cfg daOrig
          = (chainLoop cfg tm dd (aggregationChain "D")).map
              (fun tail => OutEvent.saveTS "D"
                (aggregate_data_to_timeseries (some dd) "D" cfg.spatialAggMethods tm)
                :: tail))
    ∧ (cfg.yearlyExists = false → cfg.monthlyExists = false →
        (cfg.dailyExists = false ∨ cfg.inputTimestepHours ≠ 6) →
        process_variable_standard lisfVar cfg daOrig
          = (chainLoop cfg tm daOrig
              (aggregationChain (if cfg.inputTimestepHours = 6 then "6H" else "D"))).map
              (fun tail => OutEvent.saveTS
                (if cfg.inputTimestepHours = 6 then "6H" else "D")
                (aggregate_data_to_timeseries (some daOrig)
                  (if cfg.inputTimestepHours = 6 then "6H" else "D")
                  cfg.spatialAggMethods tm)
                :: tail)) := by
  refine ⟨?_, ?_, ?_, ?_⟩
  · intro hy
    simp [process_variable_standard, htm, hov, hy]
  · intro hy hm
    simp only [process_variable_standard, htm, hov, hy, hm]
    simp only [Bool.false_eq_true, and_false, if_false, and_true, if_true, hdm]
    cases hc : chainLoop cfg tm dm (aggregationChain "M") <;>
      simp [hc, Except.map, Bind.bind, Except.bind]
  · intro hy hm hd h6
    simp only [process_variable_standard, htm, hov, hy, hm, hd, h6]
    simp only [Bool.false_eq_true, and_false, if_false, and_true, if_true, hdd]
    cases hc : chainLoop cfg tm dd (aggregationChain "D") <;>
      simp [hc, Except.map, Bind.bind, Except.bind]
  · intro hy hm hcase
    simp only [process_variable_standard, htm, hov, hy, hm]
    simp only [Bool.false_eq_true, and_false, if_false, and_true, if_true]
    have hdcond : ¬ (cfg.dailyExists = true ∧ cfg.inputTimestepHours = 6) := by
      rcases hcase with h | h
      · rintro ⟨h1, _⟩; rw [h] at h1; cases h1
      · rintro ⟨_, h2⟩; exact h h2
    rw [if_neg (by tauto)]
    cases hc : chainLoop cfg tm daOrig
        (aggregationChain (if cfg.inputTimestepHours = 6 then "6H" else "D")) <;>
      simp [hc, Except.map, Bind.bind, Except.bind]

theorem c7_resume_order_witness :
    (⟨["f"], "sum", [], "mean", 24, ["mean"], false, false, true, false, false,
        some ⟨"m", [], [], []⟩, some ⟨"d", [], [], []⟩⟩ : StdConfig).overwrite = false
    ∧ process_variable_standard "f"
        ⟨["f"], "sum", [], "mean", 24, ["mean"], false, false, true, false, false,
          some ⟨"m", [], [], []⟩, some ⟨"d", [], [], []⟩⟩
        ⟨"v", ["time", "lat", "lon"], [0, 24], [[1], [2]]⟩
      = .ok [] := by
  refine ⟨rfl, ?_⟩
  exact (c7_resume_order "f"
    ⟨["f"], "sum", [], "mean", 24, ["mean"], false, false, true, false, false,
      some ⟨"m", [], [], []⟩, some ⟨"d", [], [], []⟩⟩
    ⟨"v", ["time", "lat", "lon"], [0, 24], [[1], [2]]⟩
    ⟨"m", [], [], []⟩ ⟨"d", [], [], []⟩ "sum" rfl rfl rfl (by simp)).1 rfl

/-! ## Lemmas: window conventions -/

theorem div_eq_of_between {m i k : Nat} (hk : 0 < k) (h1 : k * i ≤ m)
    (h2 : m < k * (i + 1)) : m / k = i := by
  have h3 := Nat.div_le_div_right (c := k) h1
  have := Nat.mul_div_cancel_left i hk
  have h4 := Nat.div_lt_of_lt_mul h2
  omega

theorem cumDays_pos (n : Nat) : 0 < cumDays (n + 1) := by
  have := cumDays_strictMono (show 0 < n + 1 by omega)
  simpa [cumDays] using this

theorem monthOfDay_div_range {d i k : Nat} (hk : 0 < k)
    (h1 : cumDays (k * i) ≤ d) (h2 : d < cumDays (k * (i + 1))) :
    monthOfDay d / k = i := by
  have hle := monthOfDay_le d
  have hlt := monthOfDay_lt d
  have hA : k * i ≤ monthOfDay d := by
    by_contra h
    push_neg at h
    have : cumDays (monthOfDay d + 1) ≤ cumDays (k * i) :=
      cumDays_strictMono.monotone (by omega)
    omega
  have hB : monthOfDay d < k * (i + 1) := by
    by_contra h
    push_neg at h
    have : cumDays (k * (i + 1)) ≤ cumDays (monthOfDay d) :=
      cumDays_strictMono.monotone h
    omega
  exact div_eq_of_between hk hA hB

theorem monthOfDay_between {d i : Nat} (h1 : cumDays i ≤ d)
    (h2 : d < cumDays (i + 1)) : monthOfDay d = i := by
  have := monthOfDay_div_range (k := 1) (by omega) (by simpa using h1)
    (by simpa using h2)
  simpa using this

theorem day_div_range {t c c2 : Nat} (h1 : 24 * c ≤ t) (h2 : t < 24 * c2) :
    c ≤ t / 24 ∧ t / 24 < c2 := by
  omega

theorem cumDays_pos_of_pos {n : Nat} (h : 0 < n) : 0 < cumDays n := by
  cases n with
  | zero => omega
  | succ k => exact cumDays_pos k

/-- C5: the resampling window conventions: the code's dispatch list
`['M', 'Y', 'A', 'AS', 'Q', 'QS']` is exactly the calendar-bound
frequencies, which are right-labelled and right-closed — for the
month/quarter/year-end frequencies every timestamp inside the period lands
in that period's bucket, the label is the start of the period's last day
(period end), the label itself and the period's final instant are included
in the bucket; for the year/quarter-start variants the bucket is the
right-closed interval up to the next period start, which is the label and
is included. The fixed-length frequencies `6H` and `D` are left-labelled and
left-closed: the label is the bucket's start, it is included, and every
timestamp lies within one step length at or after its bucket's label. This
bucketing underlies both `aggregate_data_to_timeseries` and
`aggregate_data_to_netcdf` through `bucketOf`/`labelOf`. -/
theorem c5_window_convention (s : String) (f : Freq) (hp : parseFreq s = some f)
    (t i : Nat) :
    ((upperStr s ∈ (["M", "Y", "A", "AS", "Q", "QS"] : List String))
        ↔ calendarBound f = true)
    ∧ (f = .M ∨ f = .Q ∨ f = .Y ∨ f = .A →
        (periodStartH f i ≤ t → t < periodStartH f (i + 1) → bucketOf f t = i)
        ∧ labelOf f i + 24 = periodStartH f (i + 1)
        ∧ bucketOf f (labelOf f i) = i
        ∧ bucketOf f (periodStartH f (i + 1) - 1) = i)
    ∧ (f = .AS ∨ f = .QS →
        (periodStartH f i < t → t ≤ periodStartH f (i + 1) → bucketOf f t = i)
        ∧ labelOf f i = periodStartH f (i + 1)
        ∧ bucketOf f (labelOf f i) = i)
    ∧ (calendarBound f = false →
        bucketOf f t = t / stepLen f
        ∧ labelOf f i = periodStartH f i
        ∧ labelOf f (bucketOf f t) ≤ t
        ∧ t < labelOf f (bucketOf f t) + stepLen f
        ∧ bucketOf f (periodStartH f i) = i) := by
  refine ⟨?_, ?_, ?_, ?_⟩
  · unfold parseFreq at hp
    split_ifs at hp with h1 h2 h3 h4 h5 h6 h7 h8 <;>
      (injection hp with hf; subst hf; simp_all [calendarBound])
  · rintro (rfl | rfl | rfl | rfl)
    · refine ⟨?_, ?_, ?_, ?_⟩
      · intro h1 h2
        simp only [periodStartH] at h1 h2
        have hd := day_div_range h1 h2
        exact monthOfDay_between hd.1 hd.2
      · show 24 * (cumDays (i + 1) - 1) + 24 = 24 * cumDays (i + 1)
        have := cumDays_pos i
        omega
      · show monthOfDay (24 * (cumDays (i + 1) - 1) / 24) = i
        have h0 := cumDays_pos i
        have hlt : cumDays i < cumDays (i + 1) := cumDays_strictMono (by omega)
        have hdiv : 24 * (cumDays (i + 1) - 1) / 24 = cumDays (i + 1) - 1 := by omega
        rw [hdiv]
        exact monthOfDay_between (by omega) (by omega)
      · show monthOfDay ((24 * cumDays (i + 1) - 1) / 24) = i
        have h0 := cumDays_pos i
        have hlt : cumDays i < cumDays (i + 1) := cumDays_strictMono (by omega)
        have hdiv : (24 * cumDays (i + 1) - 1) / 24 = cumDays (i + 1) - 1 := by omega
        rw [hdiv]
        exact monthOfDay_between (by omega) (by omega)
    · refine ⟨?_, ?_, ?_, ?_⟩
      · intro h1 h2
        simp only [periodStartH] at h1 h2
        have hd := day_div_range h1 h2
        exact monthOfDay_div_range (by omega) hd.1 hd.2
      · show 24 * (cumDays (3 * (i + 1)) - 1) + 24 = 24 * cumDays (3 * (i + 1))
        have := cumDays_pos_of_pos (n := 3 * (i + 1)) (by omega)
        omega
      · show monthOfDay (24 * (cumDays (3 * (i + 1)) - 1) / 24) / 3 = i
        have h0 := cumDays_pos_of_pos (n := 3 * (i + 1)) (by omega)
        have hlt : cumDays (3 * i) < cumDays (3 * (i + 1)) :=
          cumDays_strictMono (by omega)
        have hdiv : 24 * (cumDays (3 * (i + 1)) - 1) / 24 = cumDays (3 * (i + 1)) - 1 := by
          omega
        rw [hdiv]
        exact monthOfDay_div_range (by omega) (by omega) (by omega)
      · show monthOfDay ((24 * cumDays (3 * (i + 1)) - 1) / 24) / 3 = i
        have h0 := cumDays_pos_of_pos (n := 3 * (i + 1)) (by omega)
        have hlt : cumDays (3 * i) < cumDays (3 * (i + 1)) :=
          cumDays_strictMono (by omega)
        have hdiv : (24 * cumDays (3 * (i + 1)) - 1) / 24 = cumDays (3 * (i + 1)) - 1 := by
          omega
        rw [hdiv]
        exact monthOfDay_div_range (by omega) (by omega) (by omega)
    · refine ⟨?_, ?_, ?_, ?_⟩
      · intro h1 h2
        simp only [periodStartH] at h1 h2
        have hd := day_div_range h1 h2
        exact monthOfDay_div_range (by omega) hd.1 hd.2
      · show 24 * (cumDays (12 * (i + 1)) - 1) + 24 = 24 * cumDays (12 * (i + 1))
        have := cumDays_pos_of_pos (n := 12 * (i + 1)) (by omega)
        omega
      · show monthOfDay (24 * (cumDays (12 * (i + 1)) - 1) / 24) / 12 = i
        have h0 := cumDays_pos_of_pos (n := 12 * (i + 1)) (by omega)
        have hlt : cumDays (12 * i) < cumDays (12 * (i + 1)) :=
          cumDays_strictMono (by omega)
        have hdiv : 24 * (cumDays (12 * (i + 1)) - 1) / 24
            = cumDays (12 * (i + 1)) - 1 := by omega
        rw [hdiv]
        exact monthOfDay_div_range (by omega) (by omega) (by omega)
      · show monthOfDay ((24 * cumDays (12 * (i + 1)) - 1) / 24) / 12 = i
        have h0 := cumDays_pos_of_pos (n := 12 * (i + 1)) (by omega)
        have hlt : cumDays (12 * i) < cumDays (12 * (i + 1)) :=
          cumDays_strictMono (by omega)
        have hdiv : (24 * cumDays (12 * (i + 1)) - 1) / 24
            = cumDays (12 * (i + 1)) - 1 := by omega
        rw [hdiv]
        exact monthOfDay_div_range (by omega) (by omega) (by omega)
    · refine ⟨?_, ?_, ?_, ?_⟩
      · intro h1 h2
        simp only [periodStartH] at h1 h2
        have hd := day_div_range h1 h2
        exact monthOfDay_div_range (by omega) hd.1 hd.2
      · show 24 * (cumDays (12 * (i + 1)) - 1) + 24 = 24 * cumDays (12 * (i + 1))
        have := cumDays_pos_of_pos (n := 12 * (i + 1)) (by omega)
        omega
      · show monthOfDay (24 * (cumDays (12 * (i + 1)) - 1) / 24) / 12 = i
        have h0 := cumDays_pos_of_pos (n := 12 * (i + 1)) (by omega)
        have hlt : cumDays (12 * i) < cumDays (12 * (i + 1)) :=
          cumDays_strictMono (by omega)
        have hdiv : 24 * (cumDays (12 * (i + 1)) - 1) / 24
            = cumDays (12 * (i + 1)) - 1 := by omega
        rw [hdiv]
        exact monthOfDay_div_range (by omega) (by omega) (by omega)
      · show monthOfDay ((24 * cumDays (12 * (i + 1)) - 1) / 24) / 12 = i
        have h0 := cumDays_pos_of_pos (n := 12 * (i + 1)) (by omega)
        have hlt : cumDays (12 * i) < cumDays (12 * (i + 1)) :=
          cumDays_strictMono (by omega)
        have hdiv : (24 * cumDays (12 * (i + 1)) - 1) / 24
            = cumDays (12 * (i + 1)) - 1 := by omega
        rw [hdiv]
        exact monthOfDay_div_range (by omega) (by omega) (by omega)
  · rintro (rfl | rfl)
    · refine ⟨?_, rfl, ?_⟩
      · intro h1 h2
        simp only [periodStartH] at h1 h2
        show monthOfDay ((t - 1) / 24) / 12 = i
        have hd1 : cumDays (12 * i) ≤ (t - 1) / 24 := by omega
        have hd2 : (t - 1) / 24 < cumDays (12 * (i + 1)) := by omega
        exact monthOfDay_div_range (by omega) hd1 hd2
      · show monthOfDay ((24 * cumDays (12 * (i + 1)) - 1) / 24) / 12 = i
        have h0 := cumDays_pos_of_pos (n := 12 * (i + 1)) (by omega)
        have hlt : cumDays (12 * i) < cumDays (12 * (i + 1)) :=
          cumDays_strictMono (by omega)
        have hdiv : (24 * cumDays (12 * (i + 1)) - 1) / 24
            = cumDays (12 * (i + 1)) - 1 := by omega
        rw [hdiv]
        exact monthOfDay_div_range (by omega) (by omega) (by omega)
    · refine ⟨?_, rfl, ?_⟩
      · intro h1 h2
        simp only [periodStartH] at h1 h2
        show monthOfDay ((t - 1) / 24) / 3 = i
        have hd1 : cumDays (3 * i) ≤ (t - 1) / 24 := by omega
        have hd2 : (t - 1) / 24 < cumDays (3 * (i + 1)) := by omega
        exact monthOfDay_div_range (by omega) hd1 hd2
      · show monthOfDay ((24 * cumDays (3 * (i + 1)) - 1) / 24) / 3 = i
        have h0 := cumDays_pos_of_pos (n := 3 * (i + 1)) (by omega)
        have hlt : cumDays (3 * i) < cumDays (3 * (i + 1)) :=
          cumDays_strictMono (by omega)
        have hdiv : (24 * cumDays (3 * (i + 1)) - 1) / 24
            = cumDays (3 * (i + 1)) - 1 := by omega
        rw [hdiv]
        exact monthOfDay_div_range (by omega) (by omega) (by omega)
  · intro hcb
    cases f <;> simp only [calendarBound] at hcb <;>
      first
        | (refine ⟨rfl, rfl, ?_, ?_, ?_⟩
           · show 6 * (t / 6) ≤ t
             omega
           · show t < 6 * (t / 6) + 6
             omega
           · show 6 * i / 6 = i
             omega)
        | (refine ⟨rfl, rfl, ?_, ?_, ?_⟩
           · show 24 * (t / 24) ≤ t
             omega
           · show t < 24 * (t / 24) + 24
             omega
           · show 24 * i / 24 = i
             omega)
        | cases hcb

theorem c5_window_convention_witness :
    parseFreq "M" = some Freq.M
    ∧ bucketOf .M 750 = 1
    ∧ (upperStr "M" ∈ (["M", "Y", "A", "AS", "Q", "QS"] : List String))
    ∧ bucketOf .H6 (periodStartH .H6 3) = 3 := by
  refine ⟨by decide, ?_, ?_, ?_⟩
  · exact ((c5_window_convention "M" .M (by decide) 750 1).2.1
      (Or.inl rfl)).1 (by decide) (by decide)
  · exact (c5_window_convention "M" .M (by decide) 750 1).1.mpr (by decide)
  · exact ((c5_window_convention "6H" .H6 (by decide) 18 3).2.2.2
      (by decide)).2.2.2.2
